import Mathlib

/-!
Verification of the posthog-slack-analytics repository core mechanisms against
its specification.  The development shallowly embeds, from the TypeScript
source:

* `ApifyClient.runActor` (src/instagram-researcher/api/cron/research.ts,
  lines 66-112) — the submit-then-poll AsyncJobWaiter;
* `executeTool` and `runAgent` (src/unnamed/part_000, lines 267-435) — the
  tool-agent loop;
* `percentChange` (src/unnamed/part_001 line 327 and part_002 line 293);
* the `analyzeWithClaude` influencer enrichment
  (src/instagram-researcher/api/cron/research.ts, lines 282-299).

Remote calls (fetch, the model API, timers) are modelled as oracle values
supplied in an environment structure; the control flow, branching and state
updates are translated statement by statement from the source.  JavaScript
numbers are modelled as exact rationals (for `percentChange`) or integers
(counts); JSON payloads handed to tools are kept opaque as strings.
-/

namespace ApifyWaiter

/-- One observable effect of the poll loop body: the `setTimeout` sleep
(milliseconds recorded) or the status `fetch`.  The source performs
`sleep 5000` then one status query on each loop iteration. -/
inductive PollEvent where
  | sleep (ms : Nat)
  | query
deriving DecidableEq, Repr

/-- Errors thrown by `runActor`, one constructor per `throw new Error` site in
the source: the submission-response check (`Apify run error: <status>`), the
final status check (`Apify run failed with status: <status>`), and the
results-response check (`Apify results error: <status>`). -/
inductive ApifyError where
  | submissionError (httpStatus : Nat)
  | runFailed (status : String)
  | resultsError (httpStatus : Nat)
deriving DecidableEq, Repr

/-- Environment of one `runActor` call: the oracle outcomes of the remote
fetches the source performs.  `pollStatus n` is the status string returned by
the `n`-th status query (0-indexed); `results` is the parsed body of the
dataset-items fetch. -/
structure ApifyEnv (α : Type) where
  submitOk : Bool
  submitHttpStatus : Nat
  initialStatus : String
  pollStatus : Nat → String
  resultsOk : Bool
  resultsHttpStatus : Nat
  results : List α

/-- Terminal-status test from the loop guard
`status !== 'SUCCEEDED' && status !== 'FAILED'` in the source. -/
def isTerminal (s : String) : Bool :=
  s == "SUCCEEDED" || s == "FAILED"

/-- Result of the poll loop: the final value of `status`, the final value of
`attempts` (= number of status queries issued), and the trace of sleep/query
effects in order. -/
structure PollResult where
  status : String
  attempts : Nat
  events : List PollEvent
deriving DecidableEq, Repr

/-- The poll loop of `runActor`:
`while (status !== 'SUCCEEDED' && status !== 'FAILED' && attempts < maxAttempts)
\x7b await sleep(5000); status := fetch-status; attempts++; \x7d`.
`remaining` is the fuel `maxAttempts - attempts`, so the guard
`attempts < maxAttempts` is `remaining > 0`. -/
def pollLoop (poll : Nat → String) : Nat → String → Nat → PollResult
  | attempts, status, 0 => ⟨status, attempts, []⟩
  | attempts, status, remaining + 1 =>
    if isTerminal status then ⟨status, attempts, []⟩
    else
      let r := pollLoop poll (attempts + 1) (poll attempts) remaining
      ⟨r.status, r.attempts, PollEvent.sleep 5000 :: PollEvent.query :: r.events⟩

/-- Outcome of a `runActor` call: the returned value or thrown error, plus the
trace of poll-loop effects. -/
structure RunOutcome (α : Type) where
  result : Except ApifyError (List α)
  pollEvents : List PollEvent
deriving Repr

/-- `ApifyClient.runActor` from research.ts lines 66-112, with the attempt cap
as a parameter (the source hardcodes 24 in research.ts and 30 in the
part_000 copy; `runActor` below instantiates 24).  Faithful to the source:
submission failure throws `Apify run error`; after the poll loop a final
status other than SUCCEEDED throws `Apify run failed with status: <status>`
(one throw site for both the FAILED and the budget-exhausted exits, the
carried status telling them apart); a non-ok results response throws
`Apify results error`. -/
def runActorWith (env : ApifyEnv α) (maxAttempts : Nat) : RunOutcome α :=
  if env.submitOk = false then
    ⟨.error (.submissionError env.submitHttpStatus), []⟩
  else
    let r := pollLoop env.pollStatus 0 env.initialStatus maxAttempts
    if r.status ≠ "SUCCEEDED" then
      ⟨.error (.runFailed r.status), r.events⟩
    else if env.resultsOk = false then
      ⟨.error (.resultsError env.resultsHttpStatus), r.events⟩
    else
      ⟨.ok env.results, r.events⟩

/-- `runActor` with the attempt cap hardcoded to 24 as in research.ts line 87. -/
def runActor (env : ApifyEnv α) : RunOutcome α :=
  runActorWith env 24

/-- Number of status queries in a poll trace. -/
def queryCount (events : List PollEvent) : Nat :=
  events.countP (fun e => e == PollEvent.query)

/-- A concrete environment whose remote job never reaches a terminal status. -/
def wedgedEnv : ApifyEnv Nat where
  submitOk := true
  submitHttpStatus := 201
  initialStatus := "READY"
  pollStatus := fun _ => "RUNNING"
  resultsOk := true
  resultsHttpStatus := 200
  results := []

/-- A concrete environment whose remote job fails on the first poll. -/
def failingEnv : ApifyEnv Nat where
  submitOk := true
  submitHttpStatus := 201
  initialStatus := "RUNNING"
  pollStatus := fun _ => "FAILED"
  resultsOk := true
  resultsHttpStatus := 200
  results := []

end ApifyWaiter

namespace Agent

/-- Instagram profile shape used by the agent tools (part_000 lines 6-16). -/
structure ApifyProfile where
  username : String
  fullName : Option String
  biography : Option String
  followersCount : Int
  followsCount : Int
  postsCount : Int
  isVerified : Bool
  externalUrl : Option String
  profilePicUrl : Option String
deriving DecidableEq, Repr

/-- Oracle environment of the agent tools.  Each `...Raw` field is the outcome
of the try-block of the corresponding `ApifyClient` method in part_000
(its remote `runActor` calls plus post-processing), keyed by the opaque tool
input payload; `.error` is a thrown exception, which the method catches.
`inputUsernames` models the `input.usernames` field access on the opaque
payload: `none` is an absent field (JS undefined), a case the source does
not guard.  The `stringify...` fields model `JSON.stringify` of the mapped
result shapes in `executeTool`. -/
structure ToolEnv where
  searchByBioRaw : String → Except String (List ApifyProfile)
  getPostCommentersRaw : String → Except String (List String)
  getProfileDetailsRaw : List String → Except String (List ApifyProfile)
  inputUsernames : String → Option (List String)
  stringifyFound : List ApifyProfile → String
  stringifyCreators : List ApifyProfile → String
  stringifyProfiles : List ApifyProfile → String

/-- `ApifyClient.searchByBio` (part_000 lines 136-159): the try-block outcome,
with the catch returning `[]`. -/
def searchByBio (env : ToolEnv) (input : String) : List ApifyProfile :=
  match env.searchByBioRaw input with
  | .ok ps => ps
  | .error _ => []

/-- `ApifyClient.getPostCommenters` (part_000 lines 102-121): the try-block
outcome, with the catch returning `[]`. -/
def getPostCommenters (env : ToolEnv) (input : String) : List String :=
  match env.getPostCommentersRaw input with
  | .ok us => us
  | .error _ => []

/-- The uncaught exception raised by evaluating `usernames.length` when
`usernames` is undefined (part_000 line 124). -/
def typeErrorMsg : String :=
  "TypeError: Cannot read properties of undefined (reading length)"

/-- `ApifyClient.getProfileDetails` (part_000 lines 123-134).  The guard
`if (usernames.length === 0) return []` on line 124 runs BEFORE the try, so
an undefined `usernames` throws an uncaught TypeError; with an actual array,
the rest is the try-block outcome on the first 30 usernames, with the catch
returning `[]`. -/
def getProfileDetails (env : ToolEnv) (usernames : Option (List String)) :
    Except String (List ApifyProfile) :=
  match usernames with
  | none => .error typeErrorMsg
  | some us =>
    if us.isEmpty then .ok []
    else
      match env.getProfileDetailsRaw (us.take 30) with
      | .ok ps => .ok ps
      | .error _ => .ok []

/-- `executeTool` (part_000 lines 267-327): the switch over the four tool
names, with the default branch returning
`JSON.stringify(\x7b error: Unknown tool: name \x7d)` and the
`report_findings` branch returning the payload itself.  The result is a
string, except that the TypeError thrown inside `getProfileDetails` on a
missing `input.usernames` propagates out uncaught. -/
def executeTool (env : ToolEnv) (name : String) (input : String) :
    Except String String :=
  if name = "search_by_bio_keywords" then
    .ok (env.stringifyFound (searchByBio env input))
  else if name = "find_content_creators" then
    let usernames := getPostCommenters env input
    match getProfileDetails env (some usernames) with
    | .ok profiles => .ok (env.stringifyCreators profiles)
    | .error e => .error e
  else if name = "get_profile_details" then
    match getProfileDetails env (env.inputUsernames input) with
    | .ok profiles => .ok (env.stringifyProfiles profiles)
    | .error e => .error e
  else if name = "report_findings" then
    .ok input
  else
    .ok ("\x7b\"error\":\"Unknown tool: " ++ name ++ "\"\x7d")

/-- Payload of a successful `executeTool` call (used to state batch
results). -/
def okValue (x : Except String String) : String :=
  match x with
  | .ok s => s
  | .error e => e

/-- The four registered tool names (part_000 lines 164-263). -/
def registeredToolNames : List String :=
  ["search_by_bio_keywords", "find_content_creators", "get_profile_details",
   "report_findings"]

/-- One block of a model response: either a text block or a `tool_use` block
with call id, tool name and input payload. -/
inductive ContentBlock where
  | text (s : String)
  | toolUse (id : String) (name : String) (input : String)
deriving DecidableEq, Repr

/-- A model response: its `stop_reason` and its content blocks. -/
structure ModelResponse where
  stopReason : String
  content : List ContentBlock
deriving DecidableEq, Repr

/-- One `tool_result` entry pushed into the follow-up user message. -/
structure ToolResult where
  toolUseId : String
  content : String
deriving DecidableEq, Repr

/-- Content of a conversation message. -/
inductive MessageContent where
  | text (s : String)
  | blocks (bs : List ContentBlock)
  | toolResults (rs : List ToolResult)
deriving DecidableEq, Repr

/-- One conversation message (role plus content). -/
structure Message where
  role : String
  content : MessageContent
deriving DecidableEq, Repr

/-- The synthetic acknowledgment pushed as the `report_findings` tool result
(part_000 line 409). -/
def ackText : String := "Report submitted successfully."

/-- The for-loop over `response.content` (part_000 lines 399-421), given the
current `finalReport`.  On success it returns the final value of
`finalReport`, the `toolResults` list in push order, and the list of
`executeTool` invocations (name, input) actually issued, in order.  A
`report_findings` block unconditionally overwrites `finalReport` and pushes
the synthetic acknowledgment; every other `tool_use` block is executed via
`executeTool`, and an uncaught exception from it aborts the loop and
propagates. -/
def processBlocks (env : ToolEnv) (finalReport : Option String) :
    List ContentBlock →
    Except String (Option String × List ToolResult × List (String × String))
  | [] => .ok (finalReport, [], [])
  | ContentBlock.text _ :: rest => processBlocks env finalReport rest
  | ContentBlock.toolUse i name input :: rest =>
    if name = "report_findings" then
      match processBlocks env (some input) rest with
      | .ok r => .ok (r.1, ⟨i, ackText⟩ :: r.2.1, r.2.2)
      | .error e => .error e
    else
      match executeTool env name input with
      | .error e => .error e
      | .ok res =>
        match processBlocks env finalReport rest with
        | .ok r => .ok (r.1, ⟨i, res⟩ :: r.2.1, (name, input) :: r.2.2)
        | .error e => .error e

/-- The value `finalReport` holds after the for-loop of part_000 lines 399-421
runs over `bs` starting from `finalReport = fr`, when no exception aborts it:
the input of the last `report_findings` block, if any. -/
def lastTerminal (fr : Option String) (bs : List ContentBlock) : Option String :=
  bs.foldl (fun acc b =>
    match b with
    | ContentBlock.toolUse _ n i => if n = "report_findings" then some i else acc
    | _ => acc) fr

/-- Control skeleton of one batch: the final `finalReport`, or the uncaught
TypeError, determined by the blocks and the `input.usernames` accesses
alone. -/
def processControl (u : String → Option (List String)) (fr : Option String) :
    List ContentBlock → Except String (Option String)
  | [] => .ok fr
  | ContentBlock.text _ :: rest => processControl u fr rest
  | ContentBlock.toolUse _ name input :: rest =>
    if name = "report_findings" then processControl u (some input) rest
    else if name = "get_profile_details" ∧ u input = none then .error typeErrorMsg
    else processControl u fr rest

/-- Environment of one agent run: the model response to the `k`-th invocation
(0-indexed) and the tool oracle. -/
structure AgentEnv where
  responses : Nat → ModelResponse
  tools : ToolEnv

/-- State and final outcome of an agent run: `finalReport`, the number of
model invocations performed (the source counter `iterations`), the
conversation, and the log of `executeTool` invocations. -/
structure AgentRun where
  finalReport : Option String
  iterations : Nat
  messages : List Message
  executed : List (String × String)
deriving DecidableEq, Repr

/-- Iteration cap of the agent loop (part_000 line 375). -/
def maxIterations : Nat := 10

/-- The initial user message seeding the conversation (part_000 lines 359-371). -/
def initialUserText : String :=
  "Research Instagram accounts for VākJournal partnership and engagement opportunities.\n\nFocus on:\n1. Bio keyword search: Look for founders, coaches, writers, journaling enthusiasts\n2. Content creators: Find people posting about voice notes, morning pages, reflection, personal growth\n3. Target follower range: 5K-100K (sweet spot for engagement)\n\nFind at least 10 quality accounts and provide actionable insights. Use your tools strategically."

/-- The seeded conversation. -/
def initialMessages : List Message := [⟨"user", .text initialUserText⟩]

/-- The while-loop of `runAgent` (part_000 lines 377-432):
`while (!finalReport && iterations < maxIterations)`, with `fuel` the
remaining budget `maxIterations - iterations`.  Each round invokes the model;
on `stop_reason === 'tool_use'` it appends the assistant message, processes
the blocks, and appends one user message bundling all tool results; any other
stop reason breaks out of the loop.  An uncaught exception from a tool
execution propagates out of the loop to the caller. -/
def runAgentFrom (env : AgentEnv) : Nat → AgentRun → Except String AgentRun
  | 0, st => .ok st
  | fuel + 1, st =>
    match st.finalReport with
    | some _ => .ok st
    | none =>
      let resp := env.responses st.iterations
      if resp.stopReason = "tool_use" then
        match processBlocks env.tools none resp.content with
        | .error e => .error e
        | .ok pb =>
          runAgentFrom env fuel
            { finalReport := pb.1
              iterations := st.iterations + 1
              messages := st.messages ++
                [⟨"assistant", .blocks resp.content⟩, ⟨"user", .toolResults pb.2.1⟩]
              executed := st.executed ++ pb.2.2 }
      else
        .ok { st with iterations := st.iterations + 1 }

/-- `runAgent` (part_000 lines 331-435): run the loop from the seeded
conversation with `finalReport = null`, `iterations = 0`.  The result is the
final report state, or the uncaught exception escaping to the caller. -/
def runAgent (env : AgentEnv) : Except String AgentRun :=
  runAgentFrom env maxIterations ⟨none, 0, initialMessages, []⟩

/-- Control skeleton of the loop: only `finalReport` and the invocation count
(or the escaping exception), which depend on the response stream and the
`input.usernames` accesses alone. -/
def controlRunE (responses : Nat → ModelResponse) (u : String → Option (List String)) :
    Nat → Option String → Nat → Except String (Option String × Nat)
  | 0, fr, it => .ok (fr, it)
  | fuel + 1, fr, it =>
    match fr with
    | some r => .ok (some r, it)
    | none =>
      if (responses it).stopReason = "tool_use" then
        match processControl u none (responses it).content with
        | .error e => .error e
        | .ok fr2 => controlRunE responses u fuel fr2 (it + 1)
      else .ok (none, it + 1)

/-- A tool oracle whose remote operations all succeed with empty data and
whose payloads carry an (empty) usernames field. -/
def toolEnvOk : ToolEnv where
  searchByBioRaw := fun _ => .ok []
  getPostCommentersRaw := fun _ => .ok []
  getProfileDetailsRaw := fun _ => .ok []
  inputUsernames := fun _ => some []
  stringifyFound := fun _ => "found"
  stringifyCreators := fun _ => "creators"
  stringifyProfiles := fun _ => "profiles"

/-- A tool oracle whose remote operations all throw (inside the catches). -/
def toolEnvFail : ToolEnv where
  searchByBioRaw := fun _ => .error "network down"
  getPostCommentersRaw := fun _ => .error "network down"
  getProfileDetailsRaw := fun _ => .error "network down"
  inputUsernames := fun _ => some []
  stringifyFound := fun _ => "found"
  stringifyCreators := fun _ => "creators"
  stringifyProfiles := fun _ => "profiles"

/-- A tool oracle whose payloads lack the usernames field. -/
def toolEnvNoUsernames : ToolEnv where
  searchByBioRaw := fun _ => .ok []
  getPostCommentersRaw := fun _ => .ok []
  getProfileDetailsRaw := fun _ => .ok []
  inputUsernames := fun _ => none
  stringifyFound := fun _ => "found"
  stringifyCreators := fun _ => "creators"
  stringifyProfiles := fun _ => "profiles"

/-- First response: a terminal call followed by a non-terminal call. -/
def envTerminalThenTool : AgentEnv where
  responses := fun k =>
    if k = 0 then
      ⟨"tool_use", [ContentBlock.toolUse "toolu_1" "report_findings" "reportA",
                    ContentBlock.toolUse "toolu_2" "get_profile_details" "inputX"]⟩
    else ⟨"end_turn", []⟩
  tools := toolEnvOk

/-- First response: two terminal calls with different payloads. -/
def envTwoTerminals : AgentEnv where
  responses := fun k =>
    if k = 0 then
      ⟨"tool_use", [ContentBlock.toolUse "toolu_1" "report_findings" "reportA",
                    ContentBlock.toolUse "toolu_2" "report_findings" "reportB"]⟩
    else ⟨"end_turn", []⟩
  tools := toolEnvOk

/-- First response: exactly one terminal call. -/
def envOneTerminal : AgentEnv where
  responses := fun k =>
    if k = 0 then
      ⟨"tool_use", [ContentBlock.toolUse "toolu_1" "report_findings" "payload"]⟩
    else ⟨"end_turn", []⟩
  tools := toolEnvOk

/-- Every response requests one non-terminal tool; the terminal tool never
appears. -/
def envNeverTerminal : AgentEnv where
  responses := fun _ =>
    ⟨"tool_use", [ContentBlock.toolUse "toolu_1" "get_profile_details" "inputX"]⟩
  tools := toolEnvOk

/-- Same response stream as `envNeverTerminal` but every remote tool
operation throws. -/
def envNeverTerminalFail : AgentEnv where
  responses := fun _ =>
    ⟨"tool_use", [ContentBlock.toolUse "toolu_1" "get_profile_details" "inputX"]⟩
  tools := toolEnvFail

/-- First response calls a tool name missing from the registry, second
response is a plain text turn. -/
def envUnknownTool : AgentEnv where
  responses := fun k =>
    if k = 0 then
      ⟨"tool_use", [ContentBlock.toolUse "toolu_1" "mystery_tool" "inputX"]⟩
    else ⟨"end_turn", [ContentBlock.text "giving up"]⟩
  tools := toolEnvOk

/-- Every response requests `get_profile_details` on a payload whose
usernames field is missing. -/
def envMissingUsernames : AgentEnv where
  responses := fun _ =>
    ⟨"tool_use",
     [ContentBlock.toolUse "toolu_1" "get_profile_details" "inputNoUsernames"]⟩
  tools := toolEnvNoUsernames

end Agent

namespace Reporting

/-- `Number.prototype.toFixed(1)` on an exact value, following the ECMAScript
algorithm: a negative argument first contributes a leading minus sign and is
replaced by its magnitude; then the integer `n` for which `n / 10` is closest
to the magnitude is chosen, ties resolved toward the larger `n` — so ties
round away from zero for negative arguments, e.g. toFixed(1) on -6.25 gives
-6.3; finally the result is rendered with exactly one digit after the
decimal point. -/
def toFixed1 (q : ℚ) : String :=
  let n : Int := Int.floor (|q| * 10 + 1 / 2)
  (if q < 0 then "-" else "") ++ toString (n.natAbs / 10) ++ "." ++
    toString (n.natAbs % 10)

/-- `percentChange` (part_001 lines 327-331, identical in part_002 lines
293-297): guard `previous === 0` first, otherwise format
`((current - previous) / previous) * 100` to one decimal with a `+` prefix
for non-negative change. -/
def percentChange (current previous : ℚ) : String :=
  if previous = 0 then
    if 0 < current then "+100%" else "0%"
  else
    let change := (current - previous) / previous * 100
    (if 0 ≤ change then "+" else "") ++ toFixed1 change ++ "%"

end Reporting

namespace Research

/-- `Influencer` (research.ts lines 38-46). -/
structure Influencer where
  username : String
  followers : Int
  bio : Option String
  profileUrl : String
  engagement : Int
  relevanceScore : Int
  reason : String
deriving DecidableEq, Repr

/-- One entry of the `influencerAnalysis` array of the parsed model output;
every field may be absent since the JSON comes from free text. -/
structure InfluencerAnalysisEntry where
  username : Option String
  relevanceScore : Option Int
  reason : Option String
deriving DecidableEq, Repr

/-- The parsed model output object (`JSON.parse(jsonMatch[0])`); every field
may be absent. -/
structure ParsedAnalysis where
  trendingSummary : Option String
  contentIdeas : Option (List String)
  keyThemes : Option (List String)
  influencerAnalysis : Option (List InfluencerAnalysisEntry)
  actionItems : Option (List String)
deriving DecidableEq, Repr

/-- `ResearchInsights` (research.ts lines 48-54). -/
structure ResearchInsights where
  trendingSummary : String
  contentIdeas : List String
  influencersToReach : List Influencer
  keyThemes : List String
  actionItems : List String
deriving DecidableEq, Repr

/-- The lookup
`analysis.influencerAnalysis?.find(a => a.username?.toLowerCase() ===
inf.username?.toLowerCase())` (research.ts lines 283-285).  A missing
`influencerAnalysis` array yields no match, and an entry without a username
never matches a present username (undefined is not equal to any string). -/
def findAIAnalysis (analysis : ParsedAnalysis) (username : String) :
    Option InfluencerAnalysisEntry :=
  (analysis.influencerAnalysis.getD []).find? (fun a =>
    match a.username with
    | some u => u.toLower == username.toLower
    | none => false)

/-- JS `x || d` for an optional number: 0 (and absence) is falsy. -/
def orNum (x : Option Int) (d : Int) : Int :=
  match x with
  | some v => if v = 0 then d else v
  | none => d

/-- JS `x || d` for an optional string: the empty string (and absence) is
falsy. -/
def orStr (x : Option String) (d : String) : String :=
  match x with
  | some s => if s = "" then d else s
  | none => d

/-- The default reason string (research.ts line 289). -/
def defaultReason : String := "Active in journaling/productivity niche"

/-- The enrichment step of research.ts lines 282-291: spread the influencer
and replace `relevanceScore` with `aiAnalysis?.relevanceScore || 5` and
`reason` with `aiAnalysis?.reason || defaultReason`. -/
def enrichInfluencer (analysis : ParsedAnalysis) (inf : Influencer) : Influencer :=
  let aiAnalysis := findAIAnalysis analysis inf.username
  { inf with
    relevanceScore := orNum (aiAnalysis.bind (fun a => a.relevanceScore)) 5
    reason := orStr (aiAnalysis.bind (fun a => a.reason)) defaultReason }

/-- `analyzeWithClaude` (research.ts lines 199-300) from the parsed analysis
object onward (the model call and the free-text JSON extraction are external):
map the enrichment over the influencers, sort descending by `relevanceScore`
(comparator `b.relevanceScore - a.relevanceScore`), keep the first 5, and
fill the remaining fields with JS `||` defaults. -/
def analyzeWithClaude (analysis : ParsedAnalysis) (influencers : List Influencer) :
    ResearchInsights :=
  let enriched := (influencers.map (enrichInfluencer analysis)).mergeSort
      (fun a b => decide (b.relevanceScore ≤ a.relevanceScore))
  { trendingSummary := orStr analysis.trendingSummary "No trends identified."
    contentIdeas := analysis.contentIdeas.getD []
    influencersToReach := enriched.take 5
    keyThemes := analysis.keyThemes.getD []
    actionItems := analysis.actionItems.getD [] }

/-- A parsed analysis with every field absent (the model returned an empty
JSON object). -/
def emptyAnalysis : ParsedAnalysis where
  trendingSummary := none
  contentIdeas := none
  keyThemes := none
  influencerAnalysis := none
  actionItems := none

/-- A concrete influencer, as `discoverInfluencers` builds them (score 0,
empty reason). -/
def sampleInfluencer : Influencer where
  username := "alice"
  followers := 12000
  bio := none
  profileUrl := "https://instagram.com/alice"
  engagement := 250
  relevanceScore := 0
  reason := ""

end Research

/-! ## Theorems -/

namespace ApifyWaiter

theorem not_terminal_iff (s : String) :
    isTerminal s = false ↔ s ≠ "SUCCEEDED" ∧ s ≠ "FAILED" := by
  simp [isTerminal]

theorem pollLoop_never_terminal (poll : Nat → String)
    (hp : ∀ n, isTerminal (poll n) = false) :
    ∀ (remaining attempts : Nat) (status : String),
      isTerminal status = false →
      pollLoop poll attempts status remaining =
        ⟨(if remaining = 0 then status else poll (attempts + remaining - 1)),
         attempts + remaining,
         List.flatten (List.replicate remaining [PollEvent.sleep 5000, PollEvent.query])⟩ := by
  intro remaining
  induction remaining with
  | zero => intro attempts status hs; simp [pollLoop]
  | succ r ih =>
    intro attempts status hs
    rw [pollLoop, if_neg (by simp [hs])]
    rw [ih (attempts + 1) (poll attempts) (hp attempts)]
    rcases Nat.eq_zero_or_pos r with hr | hr
    · subst hr; simp [List.replicate]
    · have hr1 : r ≠ 0 := Nat.pos_iff_ne_zero.mp hr
      simp only [if_neg hr1, if_neg (Nat.succ_ne_zero r)]
      have h1 : attempts + 1 + r - 1 = attempts + (r + 1) - 1 := by omega
      have h2 : attempts + 1 + r = attempts + (r + 1) := by omega
      rw [h1, h2, List.replicate_succ, List.flatten_cons]
      rfl

theorem queryCount_replicate (n : Nat) :
    queryCount (List.flatten (List.replicate n [PollEvent.sleep 5000, PollEvent.query])) = n := by
  induction n with
  | zero => rfl
  | succ k ih =>
    rw [List.replicate_succ, List.flatten_cons]
    simp only [queryCount, List.countP_append] at ih ⊢
    rw [ih]
    have hc : List.countP (fun e => e == PollEvent.query)
        [PollEvent.sleep 5000, PollEvent.query] = 1 := by decide
    omega

/-- C1: for every attempt cap of at least 1, if the polled status never
becomes terminal (never SUCCEEDED and never FAILED), the poll loop of
`runActor` issues exactly `maxAttempts` status queries, each preceded by one
sleep of the 5000 ms poll interval, and the call then fails with the timeout
error: the `runFailed` error carrying the last observed status, which is
still non-terminal. -/
theorem runActor_timeout_exact_queries {α : Type} (env : ApifyEnv α) (maxAttempts : Nat)
    (hsub : env.submitOk = true)
    (hinit : isTerminal env.initialStatus = false)
    (hpoll : ∀ n, isTerminal (env.pollStatus n) = false)
    (hmax : 1 ≤ maxAttempts) :
    (runActorWith env maxAttempts).result =
        .error (.runFailed (env.pollStatus (maxAttempts - 1))) ∧
      isTerminal (env.pollStatus (maxAttempts - 1)) = false ∧
      queryCount (runActorWith env maxAttempts).pollEvents = maxAttempts ∧
      (runActorWith env maxAttempts).pollEvents =
        List.flatten (List.replicate maxAttempts [PollEvent.sleep 5000, PollEvent.query]) := by
  have hM : maxAttempts ≠ 0 := by omega
  have hlast := hpoll (maxAttempts - 1)
  have hne := (not_terminal_iff _).mp hlast
  have hz : (0 : Nat) + maxAttempts - 1 = maxAttempts - 1 := by omega
  have hz2 : (0 : Nat) + maxAttempts = maxAttempts := by omega
  simp only [runActorWith, hsub, Bool.true_eq_false, if_false,
    pollLoop_never_terminal env.pollStatus hpoll maxAttempts 0 env.initialStatus hinit,
    hM, if_false, hz, hz2]
  rw [if_pos hne.1]
  exact ⟨rfl, hlast, queryCount_replicate maxAttempts, rfl⟩

/-- Witness for C1: the wedged environment with the concrete source cap 24
makes exactly 24 queries and times out with the last status RUNNING. -/
theorem runActor_timeout_exact_queries_witness :
    (runActor wedgedEnv).result = .error (.runFailed "RUNNING") ∧
      queryCount (runActor wedgedEnv).pollEvents = 24 := by
  have h := runActor_timeout_exact_queries wedgedEnv 24 rfl (by decide)
    (fun _ => rfl) (by omega)
  exact ⟨h.1, h.2.2.1⟩

/-- C2: the exits of `runActor`, in the priority order of the source, are
distinguishable typed outcomes: a SUCCEEDED final status with a readable
dataset returns the results; a FAILED final status throws the execution error
`runFailed FAILED`; a non-terminal final status (attempt budget exhausted)
throws the timeout error `runFailed lastStatus` with `lastStatus` different
from FAILED; and a SUCCEEDED run whose dataset fetch fails throws
`resultsError`, which is distinct from every `runFailed` error. -/
theorem runActor_error_taxonomy {α : Type} (env : ApifyEnv α) (maxAttempts : Nat)
    (hsub : env.submitOk = true) :
    (((pollLoop env.pollStatus 0 env.initialStatus maxAttempts).status = "SUCCEEDED" ∧
        env.resultsOk = true) →
      (runActorWith env maxAttempts).result = .ok env.results) ∧
    ((pollLoop env.pollStatus 0 env.initialStatus maxAttempts).status = "FAILED" →
      (runActorWith env maxAttempts).result = .error (.runFailed "FAILED")) ∧
    (isTerminal (pollLoop env.pollStatus 0 env.initialStatus maxAttempts).status = false →
      (runActorWith env maxAttempts).result =
        .error (.runFailed (pollLoop env.pollStatus 0 env.initialStatus maxAttempts).status)) ∧
    (((pollLoop env.pollStatus 0 env.initialStatus maxAttempts).status = "SUCCEEDED" ∧
        env.resultsOk = false) →
      (runActorWith env maxAttempts).result = .error (.resultsError env.resultsHttpStatus)) ∧
    (∀ s code, ApifyError.runFailed s ≠ ApifyError.resultsError code) ∧
    (∀ s, isTerminal s = false → ApifyError.runFailed s ≠ ApifyError.runFailed "FAILED") := by
  refine ⟨?_, ?_, ?_, ?_, ?_, ?_⟩
  · rintro ⟨h1, h2⟩
    simp [runActorWith, hsub, h1, h2]
  · intro h1
    have hne : "FAILED" ≠ "SUCCEEDED" := by decide
    simp [runActorWith, hsub, h1, hne]
  · intro h1
    have hne := (not_terminal_iff _).mp h1
    simp [runActorWith, hsub, hne.1]
  · rintro ⟨h1, h2⟩
    simp [runActorWith, hsub, h1, h2]
  · intro s code hcontra
    cases hcontra
  · intro s hs hcontra
    have hne := (not_terminal_iff _).mp hs
    exact hne.2 (by injection hcontra)

/-- Witness for C2: a job that fails on the first poll yields the execution
error carrying FAILED. -/
theorem runActor_error_taxonomy_witness :
    (runActor failingEnv).result = .error (.runFailed "FAILED") := by
  have h := runActor_error_taxonomy failingEnv 24 rfl
  exact h.2.1 (by decide)

end ApifyWaiter


namespace Agent

theorem getProfileDetails_some_ok (env : ToolEnv) (us : List String) :
    ∃ ps, getProfileDetails env (some us) = .ok ps := by
  simp only [getProfileDetails]
  by_cases h : us.isEmpty = true
  · exact ⟨[], by rw [if_pos h]⟩
  · rw [if_neg h]
    cases hr : env.getProfileDetailsRaw (us.take 30) with
    | ok ps => exact ⟨ps, rfl⟩
    | error e => exact ⟨[], rfl⟩

theorem executeTool_fails (env : ToolEnv) (n inp : String)
    (h3 : n = "get_profile_details") (hu : env.inputUsernames inp = none) :
    executeTool env n inp = .error typeErrorMsg := by
  subst h3
  have d1 : ¬("get_profile_details" = "search_by_bio_keywords") := by decide
  have d2 : ¬("get_profile_details" = "find_content_creators") := by decide
  simp [executeTool, d1, d2, hu, getProfileDetails]

theorem executeTool_succeeds (env : ToolEnv) (n inp : String)
    (h : ¬(n = "get_profile_details" ∧ env.inputUsernames inp = none)) :
    ∃ s, executeTool env n inp = .ok s := by
  by_cases h1 : n = "search_by_bio_keywords"
  · exact ⟨_, by rw [executeTool, if_pos h1]⟩
  · by_cases h2 : n = "find_content_creators"
    · obtain ⟨ps, hps⟩ := getProfileDetails_some_ok env (getPostCommenters env inp)
      refine ⟨env.stringifyCreators ps, ?_⟩
      rw [executeTool, if_neg h1, if_pos h2]
      simp only [hps]
    · by_cases h3 : n = "get_profile_details"
      · have hu : env.inputUsernames inp ≠ none := fun hc => h ⟨h3, hc⟩
        cases hcase : env.inputUsernames inp with
        | none => exact absurd hcase hu
        | some us =>
          obtain ⟨ps, hps⟩ := getProfileDetails_some_ok env us
          refine ⟨env.stringifyProfiles ps, ?_⟩
          rw [executeTool, if_neg h1, if_neg h2, if_pos h3, hcase, hps]
      · by_cases h4 : n = "report_findings"
        · exact ⟨inp, by rw [executeTool, if_neg h1, if_neg h2, if_neg h3, if_pos h4]⟩
        · exact ⟨_, by rw [executeTool, if_neg h1, if_neg h2, if_neg h3, if_neg h4]⟩

theorem processBlocks_control (env : ToolEnv) (bs : List ContentBlock) :
    ∀ fr, (processBlocks env fr bs).map (fun r => r.1) =
      processControl env.inputUsernames fr bs := by
  induction bs with
  | nil => intro fr; rfl
  | cons b rest ih =>
    intro fr
    cases b with
    | text s =>
      simp only [processBlocks, processControl]
      exact ih fr
    | toolUse i n inp =>
      by_cases hn : n = "report_findings"
      · simp only [processBlocks, processControl, if_pos hn]
        rw [← ih (some inp)]
        cases processBlocks env (some inp) rest with
        | ok r => rfl
        | error e => rfl
      · simp only [processBlocks, processControl, if_neg hn]
        by_cases hfail : n = "get_profile_details" ∧ env.inputUsernames inp = none
        · rw [executeTool_fails env n inp hfail.1 hfail.2, if_pos hfail]
          rfl
        · obtain ⟨s, hs⟩ := executeTool_succeeds env n inp hfail
          rw [hs, if_neg hfail, ← ih fr]
          cases processBlocks env fr rest with
          | ok r => rfl
          | error e => rfl

theorem processControl_lastTerminal (u : String → Option (List String))
    (bs : List ContentBlock) :
    ∀ fr v, processControl u fr bs = .ok v → v = lastTerminal fr bs := by
  induction bs with
  | nil =>
    intro fr v h
    simp only [processControl, Except.ok.injEq] at h
    exact h.symm
  | cons b rest ih =>
    intro fr v h
    cases b with
    | text s =>
      simp only [processControl] at h
      simpa [lastTerminal, List.foldl_cons] using ih fr v h
    | toolUse i n inp =>
      by_cases hn : n = "report_findings"
      · simp only [processControl, if_pos hn] at h
        rw [ih (some inp) v h]
        simp [lastTerminal, List.foldl_cons, hn]
      · simp only [processControl, if_neg hn] at h
        by_cases hfail : n = "get_profile_details" ∧ u inp = none
        · rw [if_pos hfail] at h
          cases h
        · rw [if_neg hfail] at h
          rw [ih fr v h]
          simp [lastTerminal, List.foldl_cons, hn]

theorem runAgentFrom_control (env : AgentEnv) :
    ∀ (fuel : Nat) (st : AgentRun),
      (runAgentFrom env fuel st).map (fun r => (r.finalReport, r.iterations)) =
        controlRunE env.responses env.tools.inputUsernames fuel
          st.finalReport st.iterations := by
  intro fuel
  induction fuel with
  | zero => intro st; rfl
  | succ f ih =>
    intro st
    cases hfr : st.finalReport with
    | some r => simp [runAgentFrom, controlRunE, hfr, Except.map]
    | none =>
      by_cases hsr : (env.responses st.iterations).stopReason = "tool_use"
      · simp only [runAgentFrom, controlRunE, hfr]
        rw [if_pos hsr, if_pos hsr]
        have hpc := processBlocks_control env.tools (env.responses st.iterations).content none
        cases hpb : processBlocks env.tools none (env.responses st.iterations).content with
        | error e =>
          rw [hpb] at hpc
          rw [← hpc]
          rfl
        | ok pb =>
          rw [hpb] at hpc
          rw [← hpc]
          show (runAgentFrom env f _).map _ =
            controlRunE env.responses env.tools.inputUsernames f pb.1 (st.iterations + 1)
          exact ih _
      · simp only [runAgentFrom, controlRunE, hfr]
        rw [if_neg hsr, if_neg hsr]
        rfl

theorem controlRunE_iterations_ge (rs : Nat → ModelResponse)
    (u : String → Option (List String)) :
    ∀ (fuel : Nat) (fr : Option String) (it : Nat) (fr2 : Option String) (n : Nat),
      controlRunE rs u fuel fr it = .ok (fr2, n) → it ≤ n := by
  intro fuel
  induction fuel with
  | zero =>
    intro fr it fr2 n h
    simp only [controlRunE, Except.ok.injEq, Prod.mk.injEq] at h
    omega
  | succ f ih =>
    intro fr it fr2 n h
    cases fr with
    | some r =>
      simp only [controlRunE, Except.ok.injEq, Prod.mk.injEq] at h
      omega
    | none =>
      by_cases hsr : (rs it).stopReason = "tool_use"
      · simp only [controlRunE] at h
        rw [if_pos hsr] at h
        cases hpc : processControl u none (rs it).content with
        | error e => rw [hpc] at h; cases h
        | ok fr3 =>
          rw [hpc] at h
          have := ih fr3 (it + 1) fr2 n h
          omega
      · simp only [controlRunE] at h
        rw [if_neg hsr] at h
        simp only [Except.ok.injEq, Prod.mk.injEq] at h
        omega

theorem controlRunE_step_ge (rs : Nat → ModelResponse)
    (u : String → Option (List String)) (fuel it : Nat) (hf : 1 ≤ fuel) :
    ∀ (fr2 : Option String) (n : Nat),
      controlRunE rs u fuel none it = .ok (fr2, n) → it + 1 ≤ n := by
  intro fr2 n h
  cases fuel with
  | zero => omega
  | succ f =>
    by_cases hsr : (rs it).stopReason = "tool_use"
    · simp only [controlRunE] at h
      rw [if_pos hsr] at h
      cases hpc : processControl u none (rs it).content with
      | error e => rw [hpc] at h; cases h
      | ok fr3 =>
        rw [hpc] at h
        exact controlRunE_iterations_ge rs u f fr3 (it + 1) fr2 n h
    · simp only [controlRunE] at h
      rw [if_neg hsr] at h
      simp only [Except.ok.injEq, Prod.mk.injEq] at h
      omega

theorem controlRunE_some (rs : Nat → ModelResponse)
    (u : String → Option (List String)) :
    ∀ (fuel : Nat) (fr : Option String) (it : Nat) (v : String) (n : Nat),
      controlRunE rs u fuel fr it = .ok (some v, n) →
      (fr = some v ∧ n = it) ∨
      (fr = none ∧ it < n ∧
        (rs (n - 1)).stopReason = "tool_use" ∧
        processControl u none (rs (n - 1)).content = .ok (some v) ∧
        ∀ j, it ≤ j → j < n - 1 →
          (rs j).stopReason = "tool_use" ∧
          processControl u none (rs j).content = .ok none) := by
  intro fuel
  induction fuel with
  | zero =>
    intro fr it v n h
    simp only [controlRunE, Except.ok.injEq, Prod.mk.injEq] at h
    exact Or.inl ⟨h.1, h.2.symm⟩
  | succ f ih =>
    intro fr it v n h
    cases fr with
    | some r =>
      simp only [controlRunE, Except.ok.injEq, Prod.mk.injEq] at h
      exact Or.inl ⟨h.1, h.2.symm⟩
    | none =>
      by_cases hsr : (rs it).stopReason = "tool_use"
      · simp only [controlRunE] at h
        rw [if_pos hsr] at h
        cases hpc : processControl u none (rs it).content with
        | error e => rw [hpc] at h; cases h
        | ok fr2 =>
          rw [hpc] at h
          rcases ih fr2 (it + 1) v n h with ⟨hterm, hn⟩ | ⟨hnone, hlt, hstop, hlast, hprev⟩
          · right
            subst hn
            refine ⟨rfl, Nat.lt_succ_self it, ?_, ?_, ?_⟩
            · simpa using hsr
            · rw [hterm] at hpc
              simpa using hpc
            · intro j hj1 hj2
              omega
          · right
            refine ⟨rfl, by omega, hstop, hlast, ?_⟩
            intro j hj1 hj2
            rcases Nat.eq_or_lt_of_le hj1 with hj | hj
            · subst hj
              refine ⟨hsr, ?_⟩
              rw [hnone] at hpc
              exact hpc
            · exact hprev j hj hj2
      · simp only [controlRunE] at h
        rw [if_neg hsr] at h
        simp only [Except.ok.injEq, Prod.mk.injEq] at h
        exact absurd h.1 (by simp)

theorem controlRunE_none (rs : Nat → ModelResponse)
    (u : String → Option (List String)) :
    ∀ (fuel : Nat) (fr : Option String) (it : Nat) (n : Nat),
      controlRunE rs u fuel fr it = .ok (none, n) →
      fr = none ∧ it ≤ n ∧
        ∀ j, it ≤ j → j < n →
          (rs j).stopReason = "tool_use" →
          processControl u none (rs j).content = .ok none := by
  intro fuel
  induction fuel with
  | zero =>
    intro fr it n h
    simp only [controlRunE, Except.ok.injEq, Prod.mk.injEq] at h
    exact ⟨h.1, Nat.le_of_eq h.2, fun j hj1 hj2 _ => by omega⟩
  | succ f ih =>
    intro fr it n h
    cases fr with
    | some r =>
      simp only [controlRunE, Except.ok.injEq, Prod.mk.injEq] at h
      exact absurd h.1 (by simp)
    | none =>
      by_cases hsr : (rs it).stopReason = "tool_use"
      · simp only [controlRunE] at h
        rw [if_pos hsr] at h
        cases hpc : processControl u none (rs it).content with
        | error e => rw [hpc] at h; cases h
        | ok fr2 =>
          rw [hpc] at h
          obtain ⟨hfr2, hle, hprev⟩ := ih fr2 (it + 1) n h
          refine ⟨rfl, by omega, ?_⟩
          intro j hj1 hj2 hj3
          rcases Nat.eq_or_lt_of_le hj1 with hj | hj
          · subst hj
            rw [hfr2] at hpc
            exact hpc
          · exact hprev j hj hj2 hj3
      · simp only [controlRunE] at h
        rw [if_neg hsr] at h
        simp only [Except.ok.injEq, Prod.mk.injEq] at h
        refine ⟨rfl, by omega, ?_⟩
        intro j hj1 hj2 hj3
        have hj : j = it := by omega
        subst hj
        exact absurd hj3 hsr

theorem controlRunE_exhaust (rs : Nat → ModelResponse)
    (u : String → Option (List String)) :
    ∀ (fuel it : Nat),
      (∀ k, it ≤ k → k < it + fuel →
        (rs k).stopReason = "tool_use" ∧
        processControl u none (rs k).content = .ok none) →
      controlRunE rs u fuel none it = .ok (none, it + fuel) := by
  intro fuel
  induction fuel with
  | zero => intro it h; rfl
  | succ f ih =>
    intro it h
    have h0 := h it (Nat.le_refl it) (by omega)
    simp only [controlRunE]
    rw [if_pos h0.1, h0.2]
    show controlRunE rs u f none (it + 1) = .ok (none, it + (f + 1))
    rw [ih (it + 1) (fun k hk1 hk2 => h k (by omega) (by omega))]
    have harith : it + 1 + f = it + (f + 1) := by omega
    rw [harith]

end Agent

namespace Agent

/-- C3 counterexample: in the first batch of `envTerminalThenTool` the
terminal `report_findings` call comes first and a non-terminal
`get_profile_details` call comes after it; the claim says the loop stops
issuing tool executions at the terminal call (so nothing after it runs), yet
the run completes with an execution log showing the later non-terminal tool
was executed. -/
theorem terminal_call_does_not_stop_batch :
    (runAgent envTerminalThenTool).toOption.map
        (fun r => (r.finalReport, r.executed)) =
      some (some "reportA", [("get_profile_details", "inputX")]) := by
  decide

/-- C3 amended: when a batch containing the terminal tool is processed to
completion (no uncaught tool exception), the loop body captures the last
terminal call payload as `finalReport`, pushes the synthetic success
acknowledgment as each terminal call result, and still executes every
non-terminal tool of the batch in request order, both before and after the
terminal call. -/
theorem batch_executes_all_nonterminal_tools (env : ToolEnv)
    (bs : List ContentBlock) :
    ∀ (fr : Option String)
      (out : Option String × List ToolResult × List (String × String)),
      processBlocks env fr bs = .ok out →
      out.1 = lastTerminal fr bs ∧
      out.2.1 = bs.filterMap (fun b =>
        match b with
        | ContentBlock.toolUse i n inp =>
          some ⟨i, if n = "report_findings" then ackText
                   else okValue (executeTool env n inp)⟩
        | _ => none) ∧
      out.2.2 = bs.filterMap (fun b =>
        match b with
        | ContentBlock.toolUse _ n inp =>
          if n = "report_findings" then none else some (n, inp)
        | _ => none) := by
  induction bs with
  | nil =>
    intro fr out h
    simp only [processBlocks, Except.ok.injEq] at h
    subst h
    exact ⟨rfl, rfl, rfl⟩
  | cons b rest ih =>
    intro fr out h
    cases b with
    | text s =>
      simp only [processBlocks] at h
      obtain ⟨h1, h2, h3⟩ := ih fr out h
      refine ⟨?_, ?_, ?_⟩
      · exact h1.trans rfl
      · exact h2.trans rfl
      · exact h3.trans rfl
    | toolUse i n inp =>
      by_cases hn : n = "report_findings"
      · simp only [processBlocks, if_pos hn] at h
        cases hr : processBlocks env (some inp) rest with
        | error e => rw [hr] at h; cases h
        | ok r =>
          rw [hr] at h
          simp only [Except.ok.injEq] at h
          subst h
          obtain ⟨h1, h2, h3⟩ := ih (some inp) r hr
          refine ⟨?_, ?_, ?_⟩ <;> dsimp only
          · rw [h1]
            simp [lastTerminal, List.foldl_cons, hn]
          · rw [h2]
            simp [List.filterMap_cons, hn]
          · rw [h3]
            simp [List.filterMap_cons, hn]
      · simp only [processBlocks, if_neg hn] at h
        cases he : executeTool env n inp with
        | error e => rw [he] at h; cases h
        | ok s =>
          rw [he] at h
          cases hr : processBlocks env fr rest with
          | error e => rw [hr] at h; cases h
          | ok r =>
            rw [hr] at h
            simp only [Except.ok.injEq] at h
            subst h
            obtain ⟨h1, h2, h3⟩ := ih fr r hr
            refine ⟨?_, ?_, ?_⟩ <;> dsimp only
            · rw [h1]
              simp [lastTerminal, List.foldl_cons, hn]
            · rw [h2]
              simp [List.filterMap_cons, hn, okValue, he]
            · rw [h3]
              simp [List.filterMap_cons, hn]

/-- Witness for the amended C3 at a concrete completed batch. -/
theorem batch_executes_all_nonterminal_tools_witness :
    (some "reportA" : Option String) =
      lastTerminal none
        [ContentBlock.toolUse "toolu_1" "report_findings" "reportA",
         ContentBlock.toolUse "toolu_2" "get_profile_details" "inputX"] := by
  have h := batch_executes_all_nonterminal_tools toolEnvOk
    [ContentBlock.toolUse "toolu_1" "report_findings" "reportA",
     ContentBlock.toolUse "toolu_2" "get_profile_details" "inputX"] none
    (some "reportA",
     [⟨"toolu_1", ackText⟩, ⟨"toolu_2", "profiles"⟩],
     [("get_profile_details", "inputX")]) rfl
  exact h.1

/-- C4 counterexample: a batch with two terminal calls carrying different
payloads completes the run with the second payload, so `finalResult` is
changed after first being set, by another tool call observed in the same
batch. -/
theorem second_terminal_overwrites_finalReport :
    (runAgent envTwoTerminals).toOption.map (fun r => r.finalReport) =
        some (some "reportB") ∧
      ("reportA" : String) ≠ "reportB" := by
  exact ⟨by decide, by decide⟩

/-- C4 amended: on a run that completes, `finalReport` is set iff one of the
processed tool_use rounds contained a terminal tool invocation, and it then
equals the input of the LAST terminal call of the first round containing one
(a later terminal call in the same batch overwrites an earlier one); all
earlier processed rounds contained no terminal call, and once set the loop
performs no further iterations.  When no processed round contains a terminal
call, `finalReport` stays unset: the loop never fabricates a result. -/
theorem finalReport_iff_terminal_observed (env : AgentEnv) :
    (∀ (run : AgentRun) (v : String), runAgent env = .ok run →
      run.finalReport = some v →
      1 ≤ run.iterations ∧
      (env.responses (run.iterations - 1)).stopReason = "tool_use" ∧
      lastTerminal none (env.responses (run.iterations - 1)).content = some v ∧
      ∀ j, j < run.iterations - 1 →
        (env.responses j).stopReason = "tool_use" ∧
        lastTerminal none (env.responses j).content = none) ∧
    (∀ run : AgentRun, runAgent env = .ok run → run.finalReport = none →
      ∀ j, j < run.iterations →
        (env.responses j).stopReason = "tool_use" →
        lastTerminal none (env.responses j).content = none) := by
  have hc : (runAgent env).map (fun r => (r.finalReport, r.iterations)) =
      controlRunE env.responses env.tools.inputUsernames maxIterations none 0 :=
    runAgentFrom_control env maxIterations ⟨none, 0, initialMessages, []⟩
  constructor
  · intro run v hrun hfr
    rw [hrun] at hc
    simp only [Except.map, hfr] at hc
    rcases controlRunE_some env.responses env.tools.inputUsernames maxIterations
        none 0 v run.iterations hc.symm with
      ⟨hcon, -⟩ | ⟨-, hlt, hstop, hpc, hprev⟩
    · exact absurd hcon (by simp)
    · refine ⟨by omega, hstop, ?_, ?_⟩
      · exact (processControl_lastTerminal env.tools.inputUsernames
          (env.responses (run.iterations - 1)).content none (some v) hpc).symm
      · intro j hj
        obtain ⟨hs, hp⟩ := hprev j (Nat.zero_le j) hj
        exact ⟨hs, (processControl_lastTerminal env.tools.inputUsernames
          (env.responses j).content none none hp).symm⟩
  · intro run hrun hfr j hj hjt
    rw [hrun] at hc
    simp only [Except.map, hfr] at hc
    obtain ⟨-, -, hprev⟩ := controlRunE_none env.responses env.tools.inputUsernames
      maxIterations none 0 run.iterations hc.symm
    exact (processControl_lastTerminal env.tools.inputUsernames
      (env.responses j).content none none (hprev j (Nat.zero_le j) hj hjt)).symm

/-- Witness for C4 at the single-terminal environment: the completed run
result `some "payload"` indeed comes from an observed terminal invocation in
the first round. -/
theorem finalReport_iff_terminal_observed_witness :
    (envOneTerminal.responses 0).stopReason = "tool_use" ∧
      lastTerminal none (envOneTerminal.responses 0).content = some "payload" := by
  have hsome : (runAgent envOneTerminal).toOption.map AgentRun.finalReport =
      some (some "payload") := by decide
  have hit0 : (runAgent envOneTerminal).toOption.map AgentRun.iterations =
      some 1 := by decide
  cases hrun : runAgent envOneTerminal with
  | error e =>
    rw [hrun] at hsome
    simp [Except.toOption] at hsome
  | ok run =>
    rw [hrun] at hsome hit0
    simp only [Except.toOption, Option.map] at hsome hit0
    have hfr : run.finalReport = some "payload" := by simpa using hsome
    have hit : run.iterations = 1 := by simpa using hit0
    have h := (finalReport_iff_terminal_observed envOneTerminal).1 run "payload"
      hrun hfr
    rw [hit] at h
    exact ⟨h.2.1, h.2.2.1⟩

/-- C5: if the first model response is a tool_use round whose batch processes
to completion with last-terminal payload `inp`, the run performs exactly one
model invocation and returns that payload verbatim as `finalReport`. -/
theorem first_response_terminal_single_invocation (env : AgentEnv) (inp : String)
    (h0 : (env.responses 0).stopReason = "tool_use")
    (hterm : processControl env.tools.inputUsernames none
      (env.responses 0).content = .ok (some inp)) :
    lastTerminal none (env.responses 0).content = some inp ∧
      ∃ run : AgentRun, runAgent env = .ok run ∧
        run.finalReport = some inp ∧ run.iterations = 1 := by
  have hc : (runAgent env).map (fun r => (r.finalReport, r.iterations)) =
      controlRunE env.responses env.tools.inputUsernames maxIterations none 0 :=
    runAgentFrom_control env maxIterations ⟨none, 0, initialMessages, []⟩
  have hstep : controlRunE env.responses env.tools.inputUsernames
      maxIterations none 0 = .ok (some inp, 1) := by
    show controlRunE env.responses env.tools.inputUsernames (9 + 1) none 0 =
      .ok (some inp, 1)
    simp only [controlRunE]
    rw [if_pos h0, hterm]
  refine ⟨(processControl_lastTerminal env.tools.inputUsernames
    (env.responses 0).content none (some inp) hterm).symm, ?_⟩
  rw [hstep] at hc
  cases hrun : runAgent env with
  | error e =>
    rw [hrun] at hc
    simp [Except.map] at hc
  | ok run =>
    rw [hrun] at hc
    simp only [Except.map, Except.ok.injEq, Prod.mk.injEq] at hc
    exact ⟨run, rfl, hc.1, hc.2⟩

/-- Witness for C5 at the single-terminal concrete environment. -/
theorem first_response_terminal_single_invocation_witness :
    lastTerminal none (envOneTerminal.responses 0).content = some "payload" ∧
      (runAgent envOneTerminal).toOption.map
        (fun r => (r.finalReport, r.iterations)) = some (some "payload", 1) := by
  have h := first_response_terminal_single_invocation envOneTerminal "payload"
    rfl rfl
  refine ⟨h.1, ?_⟩
  obtain ⟨run, hrun, hfr, hit⟩ := h.2
  rw [hrun]
  simp [Except.toOption, hfr, hit]

/-- C6: if all ten rounds are tool_use rounds whose batches process to
completion with no terminal call, the run performs exactly 10 model
invocations (the `maxIterations` budget) and returns no result; a first
response that is a plain non-tool message likewise returns no result after
its single invocation. -/
theorem no_terminal_budget_exhaustion (env : AgentEnv)
    (h : ∀ k, k < 10 →
      (env.responses k).stopReason = "tool_use" ∧
      processControl env.tools.inputUsernames none (env.responses k).content =
        .ok none) :
    (∃ run : AgentRun, runAgent env = .ok run ∧
      run.finalReport = none ∧ run.iterations = 10) ∧
    ∀ env2 : AgentEnv, (env2.responses 0).stopReason ≠ "tool_use" →
      ∃ run2 : AgentRun, runAgent env2 = .ok run2 ∧
        run2.finalReport = none ∧ run2.iterations = 1 := by
  constructor
  · have hc : (runAgent env).map (fun r => (r.finalReport, r.iterations)) =
        controlRunE env.responses env.tools.inputUsernames 10 none 0 :=
      runAgentFrom_control env maxIterations ⟨none, 0, initialMessages, []⟩
    have hex := controlRunE_exhaust env.responses env.tools.inputUsernames 10 0
      (fun k hk1 hk2 => h k (by omega))
    rw [hex] at hc
    cases hrun : runAgent env with
    | error e =>
      rw [hrun] at hc
      simp [Except.map] at hc
    | ok run =>
      rw [hrun] at hc
      simp only [Except.map, Except.ok.injEq, Prod.mk.injEq] at hc
      exact ⟨run, rfl, hc.1, hc.2⟩
  · intro env2 h2
    have hc : (runAgent env2).map (fun r => (r.finalReport, r.iterations)) =
        controlRunE env2.responses env2.tools.inputUsernames 10 none 0 :=
      runAgentFrom_control env2 maxIterations ⟨none, 0, initialMessages, []⟩
    have hstep : controlRunE env2.responses env2.tools.inputUsernames 10 none 0 =
        .ok (none, 1) := by
      show controlRunE env2.responses env2.tools.inputUsernames (9 + 1) none 0 =
        .ok (none, 1)
      simp only [controlRunE]
      rw [if_neg h2]
    rw [hstep] at hc
    cases hrun : runAgent env2 with
    | error e =>
      rw [hrun] at hc
      simp [Except.map] at hc
    | ok run2 =>
      rw [hrun] at hc
      simp only [Except.map, Except.ok.injEq, Prod.mk.injEq] at hc
      exact ⟨run2, rfl, hc.1, hc.2⟩

/-- Witness for C6 at the environment that always requests a non-terminal
tool. -/
theorem no_terminal_budget_exhaustion_witness :
    (runAgent envNeverTerminal).toOption.map
      (fun r => (r.finalReport, r.iterations)) = some (none, 10) := by
  have h := (no_terminal_budget_exhaustion envNeverTerminal
    (fun k _ => ⟨rfl, rfl⟩)).1
  obtain ⟨run, hrun, hfr, hit⟩ := h
  rw [hrun]
  simp [Except.toOption, hfr, hit]

/-- C7 counterexample: the loop CAN raise to its caller.  A model response
requesting `get_profile_details` on a payload whose usernames field is
missing reaches `usernames.length` (part_000 line 124) outside any
try/catch, and the TypeError escapes `runAgent`: the run evaluates to the
escaping exception, not to a result. -/
theorem missing_usernames_typeerror_escapes :
    runAgent envMissingUsernames = .error typeErrorMsg := rfl

/-- C7 amended: caught remote-call errors (the try/catch sites inside the
ApifyClient methods) are converted into empty-result success strings fed back
into the conversation, and remote outcomes never change the loop control
flow: two environments with the same response stream and the same
`input.usernames` accesses produce identical (result, invocation count)
outcomes, exceptions included.  The loop is not exception-free, however: an
`executeTool` call raises exactly when it is a `get_profile_details` call
whose input lacks the usernames field, and that TypeError escapes to the
caller. -/
theorem caught_vs_uncaught_tool_errors (env env2 : AgentEnv)
    (hresp : env.responses = env2.responses)
    (hu : env.tools.inputUsernames = env2.tools.inputUsernames) :
    ((runAgent env).map (fun r => (r.finalReport, r.iterations)) =
      (runAgent env2).map (fun r => (r.finalReport, r.iterations))) ∧
    (∀ inp e : String, env.tools.searchByBioRaw inp = .error e →
      executeTool env.tools "search_by_bio_keywords" inp =
        .ok (env.tools.stringifyFound [])) ∧
    (∀ inp e : String, env.tools.getPostCommentersRaw inp = .error e →
      executeTool env.tools "find_content_creators" inp =
        .ok (env.tools.stringifyCreators [])) ∧
    (∀ n inp : String, (∃ e, executeTool env.tools n inp = .error e) ↔
      (n = "get_profile_details" ∧ env.tools.inputUsernames inp = none)) := by
  refine ⟨?_, ?_, ?_, ?_⟩
  · have hA : (runAgent env).map (fun r => (r.finalReport, r.iterations)) =
        controlRunE env.responses env.tools.inputUsernames maxIterations none 0 :=
      runAgentFrom_control env maxIterations ⟨none, 0, initialMessages, []⟩
    have hB : (runAgent env2).map (fun r => (r.finalReport, r.iterations)) =
        controlRunE env2.responses env2.tools.inputUsernames maxIterations none 0 :=
      runAgentFrom_control env2 maxIterations ⟨none, 0, initialMessages, []⟩
    rw [hA, hB, hresp, hu]
  · intro inp e he
    simp [executeTool, searchByBio, he]
  · intro inp e he
    have d1 : ¬("find_content_creators" = "search_by_bio_keywords") := by decide
    simp [executeTool, d1, getPostCommenters, he, getProfileDetails]
  · intro n inp
    constructor
    · rintro ⟨e, he⟩
      by_contra hcon
      obtain ⟨s, hs⟩ := executeTool_succeeds env.tools n inp hcon
      rw [hs] at he
      cases he
    · rintro ⟨h3, hnone⟩
      exact ⟨typeErrorMsg, executeTool_fails env.tools n inp h3 hnone⟩

/-- Witness for the amended C7: the all-throwing remote oracle yields the
same run outcome as the all-succeeding one under the same response stream,
and a caught remote error is converted into the empty-result string. -/
theorem caught_vs_uncaught_tool_errors_witness :
    (runAgent envNeverTerminal).map (fun r => (r.finalReport, r.iterations)) =
        (runAgent envNeverTerminalFail).map (fun r => (r.finalReport, r.iterations)) ∧
      executeTool toolEnvFail "search_by_bio_keywords" "inputX" =
        .ok (toolEnvFail.stringifyFound []) := by
  have h := caught_vs_uncaught_tool_errors envNeverTerminal envNeverTerminalFail
    rfl rfl
  have hf := caught_vs_uncaught_tool_errors envNeverTerminalFail envNeverTerminal
    rfl rfl
  exact ⟨h.1, hf.2.1 "inputX" "network down" rfl⟩

/-- C8: a tool call whose name is not one of the four registered tools makes
`executeTool` return the error-marker string
`\x7b"error":"Unknown tool: <name>"\x7d` (a success value fed back to the
model), and a run whose first round is a tool_use round that completes with
no terminal call continues to a second model invocation rather than
terminating. -/
theorem unknown_tool_error_result (env : AgentEnv) (name input : String)
    (hname : name ∉ registeredToolNames)
    (h0 : (env.responses 0).stopReason = "tool_use")
    (hnoterm : processControl env.tools.inputUsernames none
      (env.responses 0).content = .ok none) :
    executeTool env.tools name input =
      .ok ("\x7b\"error\":\"Unknown tool: " ++ name ++ "\"\x7d") ∧
    ∀ run : AgentRun, runAgent env = .ok run → 2 ≤ run.iterations := by
  constructor
  · simp only [registeredToolNames, List.mem_cons, List.not_mem_nil, or_false] at hname
    push_neg at hname
    obtain ⟨h1, h2, h3, h4⟩ := hname
    simp [executeTool, h1, h2, h3, h4]
  · intro run hrun
    have hc : (runAgent env).map (fun r => (r.finalReport, r.iterations)) =
        controlRunE env.responses env.tools.inputUsernames 10 none 0 :=
      runAgentFrom_control env maxIterations ⟨none, 0, initialMessages, []⟩
    rw [hrun] at hc
    simp only [Except.map] at hc
    have hstep : controlRunE env.responses env.tools.inputUsernames 10 none 0 =
        controlRunE env.responses env.tools.inputUsernames 9 none 1 := by
      show controlRunE env.responses env.tools.inputUsernames (9 + 1) none 0 = _
      simp only [controlRunE]
      rw [if_pos h0, hnoterm]
    rw [hstep] at hc
    exact controlRunE_step_ge env.responses env.tools.inputUsernames 9 1
      (by omega) run.finalReport run.iterations hc.symm

/-- Witness for C8 at the concrete unknown-tool environment. -/
theorem unknown_tool_error_result_witness :
    executeTool envUnknownTool.tools "mystery_tool" "inputX" =
        .ok ("\x7b\"error\":\"Unknown tool: " ++ "mystery_tool" ++ "\"\x7d") ∧
      ∃ run : AgentRun, runAgent envUnknownTool = .ok run ∧ 2 ≤ run.iterations := by
  have h := unknown_tool_error_result envUnknownTool "mystery_tool" "inputX"
    (by decide) rfl rfl
  refine ⟨h.1, ?_⟩
  have hsome : (runAgent envUnknownTool).toOption.isSome = true := by decide
  cases hrun : runAgent envUnknownTool with
  | error e =>
    rw [hrun] at hsome
    simp [Except.toOption] at hsome
  | ok run => exact ⟨run, rfl, h.2 run hrun⟩

end Agent

namespace Reporting

/-- C9: `percentChange` is total and never divides by zero.  When the
previous value is 0 it returns "+100%" for positive current and "0%"
otherwise; when the previous value is non-zero it returns the exact signed
percentage change formatted to one decimal place following ECMAScript
toFixed — the rounded tenths value `n` is within half a unit of the exact
magnitude times ten, with a minus sign for negative change — prefixed with
"+" exactly when the change is non-negative.  JS numbers are modelled as
exact rationals. -/
theorem percentChange_total (c p : ℚ) :
    (p = 0 → percentChange c p = if 0 < c then "+100%" else "0%") ∧
    (p ≠ 0 →
      percentChange c p =
        (if 0 ≤ (c - p) / p * 100 then "+" else "") ++
          toFixed1 ((c - p) / p * 100) ++ "%" ∧
      ∃ n : Int,
        |(c - p) / p * 100| * 10 - 1 / 2 ≤ (n : ℚ) ∧
        (n : ℚ) ≤ |(c - p) / p * 100| * 10 + 1 / 2 ∧
        toFixed1 ((c - p) / p * 100) =
          (if (c - p) / p * 100 < 0 then "-" else "") ++
            toString (n.natAbs / 10) ++ "." ++ toString (n.natAbs % 10)) := by
  constructor
  · intro hp
    simp [percentChange, hp]
  · intro hp
    refine ⟨by simp [percentChange, hp], ?_⟩
    refine ⟨Int.floor (|(c - p) / p * 100| * 10 + 1 / 2), ?_, ?_, rfl⟩
    · have h := Int.lt_floor_add_one (|(c - p) / p * 100| * 10 + 1 / 2)
      linarith
    · have h := Int.floor_le (|(c - p) / p * 100| * 10 + 1 / 2)
      linarith

/-- Witness for C9: the zero-previous branch, a positive change, and the
negative exact tie at percentChange(15, 16), change -6.25, which rounds away
from zero to -6.3% as the source does. -/
theorem percentChange_total_witness :
    percentChange 3 0 = "+100%" ∧ percentChange 150 100 = "+50.0%" ∧
      percentChange 15 16 = "-6.3%" := by
  refine ⟨?_, ?_, ?_⟩
  · have h := (percentChange_total 3 0).1 rfl
    rw [h, if_pos (by norm_num)]
  · have h := ((percentChange_total 150 100).2 (by norm_num)).1
    rw [h]
    have h100 : ((150 : ℚ) - 100) / 100 * 100 = 50 := by norm_num
    rw [h100, if_pos (by norm_num : (0 : ℚ) ≤ 50)]
    have habs : |(50 : ℚ)| = 50 := abs_of_nonneg (by norm_num)
    have hn : ⌊|(50 : ℚ)| * 10 + 1 / 2⌋ = 500 := by
      rw [habs, Int.floor_eq_iff]
      norm_num
    simp only [toFixed1, hn]
    rw [if_neg (by norm_num : ¬((50 : ℚ) < 0))]
    decide
  · have h := ((percentChange_total 15 16).2 (by norm_num)).1
    rw [h]
    have hch : ((15 : ℚ) - 16) / 16 * 100 = -25 / 4 := by norm_num
    rw [hch, if_neg (by norm_num : ¬((0 : ℚ) ≤ -25 / 4))]
    have habs : |(-25 / 4 : ℚ)| = 25 / 4 := by
      rw [abs_of_neg (by norm_num : (-25 / 4 : ℚ) < 0)]
      norm_num
    have hn : ⌊|(-25 / 4 : ℚ)| * 10 + 1 / 2⌋ = 63 := by
      rw [habs, Int.floor_eq_iff]
      norm_num
    simp only [toFixed1, hn]
    rw [if_pos (by norm_num : (-25 / 4 : ℚ) < 0)]
    decide

end Reporting

namespace Research

/-- C10: the `influencersToReach` field built by `analyzeWithClaude` has
length at most 5, is sorted in non-increasing `relevanceScore` order, every
member is the enrichment of one of the input influencers, and an influencer
whose username has no matching entry in the AI `influencerAnalysis` receives
the default relevanceScore 5 and the default reason string. -/
theorem analyzeWithClaude_influencersToReach (analysis : ParsedAnalysis)
    (influencers : List Influencer) :
    (analyzeWithClaude analysis influencers).influencersToReach.length ≤ 5 ∧
    (analyzeWithClaude analysis influencers).influencersToReach.Pairwise
      (fun a b => b.relevanceScore ≤ a.relevanceScore) ∧
    (∀ x ∈ (analyzeWithClaude analysis influencers).influencersToReach,
      ∃ inf ∈ influencers, x = enrichInfluencer analysis inf) ∧
    (∀ inf : Influencer, findAIAnalysis analysis inf.username = none →
      (enrichInfluencer analysis inf).relevanceScore = 5 ∧
      (enrichInfluencer analysis inf).reason = defaultReason) := by
  have hout : (analyzeWithClaude analysis influencers).influencersToReach =
      ((influencers.map (enrichInfluencer analysis)).mergeSort
        (fun a b => decide (b.relevanceScore ≤ a.relevanceScore))).take 5 := rfl
  refine ⟨?_, ?_, ?_, ?_⟩
  · rw [hout]
    exact List.length_take_le 5 _
  · rw [hout]
    have htrans : ∀ a b c : Influencer,
        decide (b.relevanceScore ≤ a.relevanceScore) →
        decide (c.relevanceScore ≤ b.relevanceScore) →
        decide (c.relevanceScore ≤ a.relevanceScore) := by
      intro a b c h1 h2
      have h1p := of_decide_eq_true h1
      have h2p := of_decide_eq_true h2
      exact decide_eq_true (le_trans h2p h1p)
    have htotal : ∀ a b : Influencer,
        decide (b.relevanceScore ≤ a.relevanceScore) ||
          decide (a.relevanceScore ≤ b.relevanceScore) := by
      intro a b
      rcases le_total b.relevanceScore a.relevanceScore with h | h <;> simp [h]
    have hsorted := List.sorted_mergeSort htrans htotal
      (influencers.map (enrichInfluencer analysis))
    have hsorted2 : ((influencers.map (enrichInfluencer analysis)).mergeSort
        (fun a b => decide (b.relevanceScore ≤ a.relevanceScore))).Pairwise
        (fun a b => b.relevanceScore ≤ a.relevanceScore) := by
      refine hsorted.imp ?_
      intro a b h
      exact of_decide_eq_true h
    exact hsorted2.sublist (List.take_sublist 5 _)
  · intro x hx
    rw [hout] at hx
    have hx2 := List.mem_of_mem_take hx
    rw [List.mem_mergeSort] at hx2
    obtain ⟨inf, hinf, hmap⟩ := List.mem_map.mp hx2
    exact ⟨inf, hinf, hmap.symm⟩
  · intro inf hfind
    simp [enrichInfluencer, hfind, orNum, orStr]

/-- Witness for C10: an influencer with no matching AI entry gets the
defaults. -/
theorem analyzeWithClaude_influencersToReach_witness :
    (enrichInfluencer emptyAnalysis sampleInfluencer).relevanceScore = 5 ∧
      (enrichInfluencer emptyAnalysis sampleInfluencer).reason = defaultReason := by
  have h := (analyzeWithClaude_influencersToReach emptyAnalysis [sampleInfluencer]).2.2.2
  exact h sampleInfluencer rfl

end Research
